import Mathlib

/-!
Formal model of the Taskify backend's task routes
(`backend/src/routes/tasks.js`) over its two database backends
(SQLite with JSON-text tag storage, Postgres with native structured
tag storage), as described by the repository's database-abstraction
seam.  Route handlers are translated directly from the source; the
query adapters (not present under `src/`) are modelled from the spec:
both execute the statement and, since every INSERT/UPDATE in the
routes carries a `RETURNING *` clause, expose the affected row in
`rows[0]`, while DELETE reports `rowCount`.
-/

namespace Taskify

/-- Truthiness of an optional JS string value: `undefined`/`null` and the
empty string are falsy, every other string is truthy. -/
def truthyStr : Option String → Bool
  | none => false
  | some s => !(s == "")

/-- Truthiness of an optional JS number value (here restricted to the
naturals used by the routes): `undefined`/`null` and `0` are falsy. -/
def truthyNat : Option Nat → Bool
  | none => false
  | some n => !(n == 0)

/-- The JS expression `v || null` for an optional string `v`. -/
def orNullStr (v : Option String) : Option String :=
  if truthyStr v then v else none

/-- The JS expression `v || null` for an optional number `v`. -/
def orNullNat (v : Option Nat) : Option Nat :=
  if truthyNat v then v else none

/-- The JS expression `v || d` for an optional string `v` and a string
default `d`, as in `status || 'todo'`. -/
def jsOrStr (v : Option String) (d : String) : String :=
  match v with
  | some s => if s = "" then d else s
  | none => d

/-- SQL `COALESCE(a, b)`: the first non-NULL argument. -/
def coalesce {α : Type} : Option α → Option α → Option α
  | some v, _ => some v
  | none, o => o

/-- JSON values, the shape of every HTTP response body. -/
inductive JVal : Type where
  | jnull : JVal
  | jbool : Bool → JVal
  | jnum : Nat → JVal
  | jstr : String → JVal
  | jarr : List JVal → JVal
  | jobj : List (String × JVal) → JVal

/-- Look up a key of a JSON object (first occurrence). -/
def JVal.field : JVal → String → Option JVal
  | JVal.jobj fs, k => (fs.find? (fun p => p.1 == k)).map (fun p => p.2)
  | _, _ => none

/-- Whether a JSON value is an object carrying the given key. -/
def JVal.hasKey (v : JVal) (k : String) : Bool :=
  match v with
  | JVal.jobj fs => fs.any (fun p => p.1 == k)
  | _ => false

/-- The boolean value of an object's key, when it is a JSON boolean. -/
def JVal.boolField (v : JVal) (k : String) : Option Bool :=
  match v.field k with
  | some (JVal.jbool b) => some b
  | _ => none

/-- JSON encoding of a Lean optional string: `null` when absent. -/
def jOfStrOpt : Option String → JVal
  | some s => JVal.jstr s
  | none => JVal.jnull

/-- JSON encoding of a Lean optional number: `null` when absent. -/
def jOfNatOpt : Option Nat → JVal
  | some n => JVal.jnum n
  | none => JVal.jnull

/-- JSON encoding of a list of tag strings. -/
def jOfTags (l : List String) : JVal :=
  JVal.jarr (l.map JVal.jstr)

/-! ### JSON serialization of tag lists

Modelled from the spec: the SQLite backend "serializes it to text and
must deserialize on every read" via the host platform's JSON
stringify/parse pair, which the repository takes from its runtime, not
from its own sources.  The model implements the pair concretely for
the only payloads this module ever stores — flat arrays of strings —
escaping the two characters that must be escaped for the round trip
(`"` and `\`). -/

/-- Escape one character of a JSON string body. -/
def escapeChar (c : Char) : List Char :=
  if c = '"' ∨ c = '\\' then ['\\', c] else [c]

/-- Escape every character of a JSON string body. -/
def escapeChars : List Char → List Char
  | [] => []
  | c :: cs => escapeChar c ++ escapeChars cs

/-- Serialize the comma-separated items of a JSON array of strings. -/
def encodeItems : List (List Char) → List Char
  | [] => []
  | [s] => '"' :: (escapeChars s ++ ['"'])
  | s :: s2 :: ss => '"' :: (escapeChars s ++ '"' :: ',' :: encodeItems (s2 :: ss))

/-- `JSON.stringify` on an array of strings. -/
def encodeTagList (l : List String) : String :=
  String.mk ('[' :: (encodeItems (l.map String.data) ++ [']']))

/-- Parse a JSON string body (after the opening quote), returning the
decoded characters and the rest of the input after the closing quote. -/
def parseStrBody : List Char → Option (List Char × List Char)
  | [] => none
  | c :: rest =>
    if c = '"' then some ([], rest)
    else if c = '\\' then
      match rest with
      | [] => none
      | d :: rest2 =>
        match parseStrBody rest2 with
        | some (s, r) => some (d :: s, r)
        | none => none
    else
      match parseStrBody rest with
      | some (s, r) => some (c :: s, r)
      | none => none

/-- Parse the nonempty items of a JSON array of strings (after the
opening bracket), consuming the closing bracket and requiring the
input to end there.  `fuel` bounds the recursion; any value at least
the number of items suffices. -/
def parseArrAux : Nat → List Char → Option (List (List Char))
  | 0, _ => none
  | _ + 1, [] => none
  | fuel + 1, c :: rest =>
    if c = '"' then
      match parseStrBody rest with
      | some (s, r) =>
        match r with
        | [] => none
        | d :: r2 =>
          if d = ']' then (if r2 = [] then some [s] else none)
          else if d = ',' then
            match parseArrAux fuel r2 with
            | some ss => some (s :: ss)
            | none => none
          else none
      | none => none
    else none

/-- Parse the character data of a serialized array of strings. -/
def parseTagsChars : List Char → Option (List String)
  | [] => none
  | c :: rest =>
    if c = '[' then
      if rest = [']'] then some []
      else (parseArrAux (rest.length + 1) rest).map (fun l => l.map (fun cs => String.mk cs))
    else none

/-- `JSON.parse` on the serialized form of an array of strings. -/
def parseTagList (s : String) : Option (List String) :=
  parseTagsChars s.data

/-! ### Data model

The two persisted entities of the repository, with a logical clock for
the server-set timestamps and a generated-id counter for the primary
key.  A stored `tags` column is either serialized text (SQLite) or a
native structured list (Postgres). -/

/-- The configured backend, `dbConfig.type`. -/
inductive DBType : Type where
  | sqlite : DBType
  | postgres : DBType
deriving DecidableEq

/-- A Project row, as referenced by the task routes. -/
structure Project where
  id : Nat
  name : String
deriving DecidableEq

/-- A stored value of the `tags` column. -/
inductive TagCell : Type where
  | text : String → TagCell
  | arr : List String → TagCell
deriving DecidableEq

/-- A Task row as stored in either backend. -/
structure TaskRow where
  id : Nat
  project_id : Nat
  title : String
  description : Option String
  status : String
  priority : String
  due_date : Option String
  estimated_hours : Option Nat
  actual_hours : Option Nat
  tags : Option TagCell
  created_at : Nat
  updated_at : Nat
deriving DecidableEq

/-- The whole database state plus generated-id counter and clock. -/
structure DBState where
  projects : List Project
  tasks : List TaskRow
  nextTaskId : Nat
  now : Nat
deriving DecidableEq

/-- An HTTP response: status code and JSON body. -/
structure HttpResponse where
  status : Nat
  body : JVal

/-- The error envelope used by every handler failure path. -/
def errBody (msg : String) : JVal :=
  JVal.jobj [("success", JVal.jbool false), ("error", JVal.jstr msg)]

/-- Modelled from the spec: an unexpected error is "propagated to a
generic handler → 500 with generic message"; the generic error
middleware is not under `src/`. -/
def serverError : HttpResponse :=
  ⟨500, errBody "Internal server error"⟩

/-- Reading the `tags` column back into a JSON value: under SQLite a
truthy stored string is deserialized (`none` here models the JS
exception on malformed text, which the route turns into a 500); under
Postgres the structured value passes through untouched. -/
def readTags : DBType → Option TagCell → Option JVal
  | DBType.sqlite, some (TagCell.text s) =>
    if s = "" then some (JVal.jstr s)
    else (parseTagList s).map jOfTags
  | DBType.sqlite, some (TagCell.arr l) => some (jOfTags l)
  | DBType.sqlite, none => some JVal.jnull
  | DBType.postgres, some (TagCell.text s) => some (JVal.jstr s)
  | DBType.postgres, some (TagCell.arr l) => some (jOfTags l)
  | DBType.postgres, none => some JVal.jnull

/-- Writing a request's tag list into the `tags` column: serialized
text under SQLite, native structured data under Postgres. -/
def writeTags (dbType : DBType) (l : List String) : TagCell :=
  match dbType with
  | DBType.sqlite => TagCell.text (encodeTagList l)
  | DBType.postgres => TagCell.arr l

/-- The JSON fields of a task row (`SELECT t.*` column order). -/
def rowFields (t : TaskRow) (tagsJ : JVal) : List (String × JVal) :=
  [("id", JVal.jnum t.id),
   ("project_id", JVal.jnum t.project_id),
   ("title", JVal.jstr t.title),
   ("description", jOfStrOpt t.description),
   ("status", JVal.jstr t.status),
   ("priority", JVal.jstr t.priority),
   ("due_date", jOfStrOpt t.due_date),
   ("estimated_hours", jOfNatOpt t.estimated_hours),
   ("actual_hours", jOfNatOpt t.actual_hours),
   ("tags", tagsJ),
   ("created_at", JVal.jnum t.created_at),
   ("updated_at", JVal.jnum t.updated_at)]

/-- A task row as returned by `INSERT`/`UPDATE ... RETURNING *`. -/
def rowToJVal (dbType : DBType) (t : TaskRow) : Option JVal :=
  (readTags dbType t.tags).map (fun tj => JVal.jobj (rowFields t tj))

/-- The `p.name` column of `LEFT JOIN projects p ON t.project_id = p.id`. -/
def projectName (projects : List Project) (pid : Nat) : Option String :=
  (projects.find? (fun p => p.id == pid)).map Project.name

/-- A task row as returned by the two `SELECT` endpoints, which add the
joined `project_name` column. -/
def joinedToJVal (dbType : DBType) (projects : List Project) (t : TaskRow) : Option JVal :=
  (readTags dbType t.tags).map
    (fun tj => JVal.jobj
      (rowFields t tj ++ [("project_name", jOfStrOpt (projectName projects t.project_id))]))

/-- Map a fallible conversion over a list, failing if any element fails,
as the route's `result.rows.map` does under a throwing `JSON.parse`. -/
def seqMap {α β : Type} (f : α → Option β) : List α → Option (List β)
  | [] => some []
  | a :: as =>
    match f a with
    | some b =>
      match seqMap f as with
      | some bs => some (b :: bs)
      | none => none
    | none => none

/-! ### Route handlers, translated from `backend/src/routes/tasks.js` -/

/-- Query parameters of `GET /api/tasks`.  `project_id` is modelled as
an already-decoded numeric value when present. -/
structure ListQuery where
  project_id : Option Nat
  status : Option String
  priority : Option String

/-- The dynamically built `WHERE` conditions of `GET /api/tasks`:
each truthy query parameter pushes one equality condition. -/
def queryConds (q : ListQuery) : List (TaskRow → Bool) :=
  (match q.project_id with
   | some pid => [fun t => t.project_id == pid]
   | none => [])
  ++ (match q.status with
      | some st => if st == "" then [] else [fun t => t.status == st]
      | none => [])
  ++ (match q.priority with
      | some pr => if pr == "" then [] else [fun t => t.priority == pr]
      | none => [])

/-- The `ORDER BY t.created_at DESC` ordering. -/
def createdGE (a b : TaskRow) : Prop :=
  b.created_at ≤ a.created_at

instance : DecidableRel createdGE :=
  fun a b => Nat.decLe b.created_at a.created_at

instance : IsTotal TaskRow createdGE :=
  ⟨fun a b => Nat.le_total b.created_at a.created_at⟩

instance : IsTrans TaskRow createdGE :=
  ⟨fun _ _ _ h1 h2 => Nat.le_trans h2 h1⟩

/-- Handler of `GET /api/tasks`. -/
def listTasks (dbType : DBType) (s : DBState) (q : ListQuery) : HttpResponse × DBState :=
  let rows := List.insertionSort createdGE
    (s.tasks.filter (fun t => (queryConds q).all (fun c => c t)))
  match seqMap (joinedToJVal dbType s.projects) rows with
  | some js =>
    (⟨200, JVal.jobj [("success", JVal.jbool true), ("data", JVal.jarr js),
      ("count", JVal.jnum js.length)]⟩, s)
  | none => (serverError, s)

/-- Handler of `GET /api/tasks/:id`. -/
def getTaskById (dbType : DBType) (s : DBState) (id : Nat) : HttpResponse × DBState :=
  match s.tasks.find? (fun t => t.id == id) with
  | none => (⟨404, errBody "Task not found"⟩, s)
  | some t =>
    match joinedToJVal dbType s.projects t with
    | some j => (⟨200, JVal.jobj [("success", JVal.jbool true), ("data", j)]⟩, s)
    | none => (serverError, s)

/-- Body of `POST /api/tasks`; `none` is an absent (`undefined`) field.
The handler's destructuring does not read `actual_hours`. -/
structure CreateBody where
  project_id : Option Nat
  title : Option String
  description : Option String
  status : Option String
  priority : Option String
  due_date : Option String
  estimated_hours : Option Nat
  tags : Option (List String)

/-- Handler of `POST /api/tasks`. -/
def createTask (dbType : DBType) (s : DBState) (b : CreateBody) : HttpResponse × DBState :=
  match b.project_id, b.title with
  | some pid, some title =>
    if pid == 0 || title == "" then
      (⟨400, errBody "project_id and title are required"⟩, s)
    else if (s.projects.find? (fun p => p.id == pid)).isNone then
      (⟨400, errBody "Project not found"⟩, s)
    else
      let tagsValue : Option TagCell := b.tags.map (writeTags dbType)
      let row : TaskRow :=
        { id := s.nextTaskId, project_id := pid, title := title,
          description := orNullStr b.description,
          status := jsOrStr b.status "todo",
          priority := jsOrStr b.priority "medium",
          due_date := orNullStr b.due_date,
          estimated_hours := orNullNat b.estimated_hours,
          actual_hours := none,
          tags := tagsValue,
          created_at := s.now, updated_at := s.now }
      let s2 : DBState := { s with tasks := s.tasks ++ [row], nextTaskId := s.nextTaskId + 1 }
      match rowToJVal dbType row with
      | some j => (⟨201, JVal.jobj [("success", JVal.jbool true), ("data", j)]⟩, s2)
      | none => (serverError, s2)
  | _, _ => (⟨400, errBody "project_id and title are required"⟩, s)

/-- Body of `PUT /api/tasks/:id`; `none` is an absent field. -/
structure UpdateBody where
  title : Option String
  description : Option String
  status : Option String
  priority : Option String
  due_date : Option String
  estimated_hours : Option Nat
  actual_hours : Option Nat
  tags : Option (List String)

/-- The `UPDATE ... SET col = COALESCE(?, col) ... , updated_at =
CURRENT_TIMESTAMP` row transformation. -/
def applyUpdate (dbType : DBType) (b : UpdateBody) (now : Nat) (t : TaskRow) : TaskRow :=
  { id := t.id, project_id := t.project_id,
    title := (orNullStr b.title).getD t.title,
    description := coalesce (orNullStr b.description) t.description,
    status := (orNullStr b.status).getD t.status,
    priority := (orNullStr b.priority).getD t.priority,
    due_date := coalesce (orNullStr b.due_date) t.due_date,
    estimated_hours := coalesce (orNullNat b.estimated_hours) t.estimated_hours,
    actual_hours := coalesce (orNullNat b.actual_hours) t.actual_hours,
    tags := coalesce (b.tags.map (writeTags dbType)) t.tags,
    created_at := t.created_at, updated_at := now }

/-- Handler of `PUT /api/tasks/:id`. -/
def updateTask (dbType : DBType) (s : DBState) (id : Nat) (b : UpdateBody) :
    HttpResponse × DBState :=
  match s.tasks.find? (fun t => t.id == id) with
  | none => (⟨404, errBody "Task not found"⟩, s)
  | some t0 =>
    let tasks2 := s.tasks.map (fun t => if t.id == id then applyUpdate dbType b s.now t else t)
    let s2 : DBState := { s with tasks := tasks2 }
    match rowToJVal dbType (applyUpdate dbType b s.now t0) with
    | some j => (⟨200, JVal.jobj [("success", JVal.jbool true), ("data", j)]⟩, s2)
    | none => (serverError, s2)

/-- Handler of `DELETE /api/tasks/:id`: the statement runs first, then
its `rowCount` decides between 404 and the success message. -/
def deleteTask (s : DBState) (id : Nat) : HttpResponse × DBState :=
  let remaining := s.tasks.filter (fun t => !(t.id == id))
  let s2 : DBState := { s with tasks := remaining }
  if s.tasks.length - remaining.length == 0 then
    (⟨404, errBody "Task not found"⟩, s2)
  else
    (⟨200, JVal.jobj [("success", JVal.jbool true),
      ("message", JVal.jstr "Task deleted successfully")]⟩, s2)

/-- One HTTP request to the task routes. -/
inductive Request : Type where
  | list : ListQuery → Request
  | byId : Nat → Request
  | create : CreateBody → Request
  | put : Nat → UpdateBody → Request
  | del : Nat → Request

/-- Dispatch one request to its handler. -/
def handleAt (dbType : DBType) (s : DBState) : Request → HttpResponse × DBState
  | Request.list q => listTasks dbType s q
  | Request.byId id => getTaskById dbType s id
  | Request.create b => createTask dbType s b
  | Request.put id b => updateTask dbType s id b
  | Request.del id => deleteTask s id

/-- Handle one request; the logical clock advances between requests. -/
def handle (dbType : DBType) (s : DBState) (r : Request) : HttpResponse × DBState :=
  let p := handleAt dbType s r
  (p.1, { p.2 with now := p.2.now + 1 })

/-- Run a request sequence, collecting the responses. -/
def run (dbType : DBType) : DBState → List Request → List HttpResponse
  | _, [] => []
  | s, r :: rs =>
    let p := handle dbType s r
    p.1 :: run dbType p.2 rs

/-! ### Infrastructure lemmas -/

/-- A `PUT` body supplying none of the mutable fields. -/
def emptyUpdateBody : UpdateBody :=
  ⟨none, none, none, none, none, none, none, none⟩

/-- The JSON value of an optional tag list. -/
def jOfTagsOpt : Option (List String) → JVal
  | some l => jOfTags l
  | none => JVal.jnull

/-- A field of the `data` object of a response body. -/
def respDataField (r : HttpResponse) (k : String) : Option JVal :=
  match r.body.field "data" with
  | some d => d.field k
  | none => none

/-- Concrete sample data for witnesses. -/
def sampleTask : TaskRow :=
  ⟨1, 1, "Write spec", none, "todo", "medium", none, none, none, none, 3, 3⟩

/-- A sample state holding one project and one task. -/
def sampleState : DBState :=
  ⟨[⟨1, "Taskify"⟩], [sampleTask], 2, 5⟩


/-- The response-envelope shape claimed for the routes: a boolean
`success` field matching 2xx-ness, `data` accompanying every success,
`error` or `message` accompanying every failure. -/
def claimedEnvelope (r : HttpResponse) : Prop :=
  ∃ b, r.body.boolField "success" = some b
    ∧ (b = true ↔ (200 ≤ r.status ∧ r.status < 300))
    ∧ (b = true → r.body.hasKey "data" = true)
    ∧ (b = false → (r.body.hasKey "error" = true ∨ r.body.hasKey "message" = true))

/-- The envelope the handlers actually maintain: success responses carry
`data` or `message`, failures carry `error`. -/
def envelopeOk (r : HttpResponse) : Prop :=
  ∃ b, r.body.boolField "success" = some b
    ∧ (b = true ↔ (200 ≤ r.status ∧ r.status < 300))
    ∧ (b = true → (r.body.hasKey "data" = true ∨ r.body.hasKey "message" = true))
    ∧ (b = false → r.body.hasKey "error" = true)

/-- A Postgres tag cell rewritten to its SQLite serialized form. -/
def encodeCell : TagCell → TagCell
  | TagCell.arr l => TagCell.text (encodeTagList l)
  | TagCell.text s => TagCell.text s

/-- A Postgres row rewritten to its SQLite stored form. -/
def encodeRow (t : TaskRow) : TaskRow :=
  { t with tags := t.tags.map encodeCell }

/-- A Postgres state rewritten to its SQLite stored form. -/
def encState (p : DBState) : DBState :=
  { p with tasks := p.tasks.map encodeRow }

/-- A tag cell as the Postgres backend stores it: structured, never text. -/
def cellGood : Option TagCell → Prop
  | some (TagCell.text _) => False
  | _ => True

/-- Every stored tag cell is in the Postgres structured form. -/
def goodTasks (l : List TaskRow) : Prop :=
  ∀ t ∈ l, cellGood t.tags

/-! ### Theorems -/

example : parseTagList (encodeTagList ["a", "b\"c", "", "d\\e"]) = some ["a", "b\"c", "", "d\\e"] := by
  rfl

/-- Unfolding: parsing a string body that opens with the closing quote. -/
theorem parseStrBody_quote (rest : List Char) :
    parseStrBody ('"' :: rest) = some ([], rest) := by
  unfold parseStrBody; simp

/-- Unfolding: parsing a string body that opens with an escape. -/
theorem parseStrBody_backslash (d : Char) (rest : List Char) :
    parseStrBody ('\\' :: d :: rest) = (parseStrBody rest).map (fun p => (d :: p.1, p.2)) := by
  conv_lhs => unfold parseStrBody
  cases hp : parseStrBody rest <;> simp [hp]

/-- Unfolding: parsing a string body that opens with an ordinary character. -/
theorem parseStrBody_other (c : Char) (rest : List Char) (h1 : c ≠ '"') (h2 : c ≠ '\\') :
    parseStrBody (c :: rest) = (parseStrBody rest).map (fun p => (c :: p.1, p.2)) := by
  conv_lhs => unfold parseStrBody
  cases hp : parseStrBody rest <;> simp [hp, h1, h2]

/-- Parsing a string body after escaping recovers the original characters
and leaves the input after the closing quote untouched. -/
theorem parseStrBody_escapeChars (s : List Char) (rest : List Char) :
    parseStrBody (escapeChars s ++ ('"' :: rest)) = some (s, rest) := by
  induction s with
  | nil => simpa [escapeChars] using parseStrBody_quote rest
  | cons c cs ih =>
    by_cases hc : c = '"' ∨ c = '\\'
    · have he : escapeChars (c :: cs) = '\\' :: c :: escapeChars cs := by
        simp [escapeChars, escapeChar, hc]
      rw [he, List.cons_append, List.cons_append, parseStrBody_backslash, ih]
      rfl
    · push_neg at hc
      have he : escapeChars (c :: cs) = c :: escapeChars cs := by
        simp [escapeChars, escapeChar, hc.1, hc.2]
      rw [he, List.cons_append, parseStrBody_other c _ hc.1 hc.2, ih]
      rfl

/-- Unfolding: array-item parsing when the current item is the last one. -/
theorem parseArrAux_last (f : Nat) (s rest : List Char)
    (h : parseStrBody rest = some (s, [']'])) :
    parseArrAux (f + 1) ('"' :: rest) = some [s] := by
  conv_lhs => unfold parseArrAux
  simp [h]

/-- Unfolding: array-item parsing when another item follows. -/
theorem parseArrAux_comma (f : Nat) (s rest r2 : List Char)
    (h : parseStrBody rest = some (s, ',' :: r2)) :
    parseArrAux (f + 1) ('"' :: rest) = (parseArrAux f r2).map (fun ss => s :: ss) := by
  conv_lhs => unfold parseArrAux
  cases hq : parseArrAux f r2 <;> simp [h, hq]

/-- Each serialized item costs at least one character. -/
theorem length_le_length_encodeItems (l : List (List Char)) :
    l.length ≤ (encodeItems l).length := by
  induction l with
  | nil => simp [encodeItems]
  | cons s ss ih =>
    cases ss with
    | nil => simp [encodeItems]
    | cons s2 ss2 =>
      simp only [encodeItems, List.length_cons, List.length_append] at ih ⊢
      omega

/-- Parsing the serialized items of a nonempty array recovers them, given
fuel at least the number of items. -/
theorem parseArrAux_encodeItems (l : List (List Char)) :
    ∀ fuel : Nat, l ≠ [] → l.length ≤ fuel →
      parseArrAux fuel (encodeItems l ++ [']']) = some l := by
  induction l with
  | nil => intro fuel h _; exact absurd rfl h
  | cons s ss ih =>
    intro fuel _ hfuel
    cases fuel with
    | zero => simp at hfuel
    | succ f =>
      cases ss with
      | nil =>
        have hs : encodeItems [s] ++ [']'] = '"' :: (escapeChars s ++ ('"' :: [']'])) := by
          simp [encodeItems]
        rw [hs, parseArrAux_last f s _ (parseStrBody_escapeChars s [']'])]
      | cons s2 ss2 =>
        have hs : encodeItems (s :: s2 :: ss2) ++ [']']
            = '"' :: (escapeChars s ++ ('"' :: (',' :: (encodeItems (s2 :: ss2) ++ [']'])))) := by
          simp [encodeItems]
        have hrec : parseArrAux f (encodeItems (s2 :: ss2) ++ [']']) = some (s2 :: ss2) := by
          apply ih f (by simp)
          simp only [List.length_cons] at hfuel ⊢
          omega
        have hbody : parseStrBody (escapeChars s ++ ('"' :: (',' :: (encodeItems (s2 :: ss2) ++ [']']))))
            = some (s, ',' :: (encodeItems (s2 :: ss2) ++ [']'])) :=
          parseStrBody_escapeChars s _
        rw [hs, parseArrAux_comma f s _ _ hbody, hrec]
        rfl

/-- The first character of a nonempty serialized item list is a quote. -/
theorem encodeItems_cons_head (x : List Char) (xs : List (List Char)) :
    ∃ t, encodeItems (x :: xs) = '"' :: t := by
  cases xs with
  | nil => exact ⟨_, rfl⟩
  | cons y ys => exact ⟨_, rfl⟩

/-- The round trip at the heart of SQLite tag storage: deserializing a
serialized list of tag strings recovers the original list. -/
theorem parseTagList_encodeTagList (l : List String) :
    parseTagList (encodeTagList l) = some l := by
  cases l with
  | nil => rfl
  | cons s ss =>
    obtain ⟨t, ht⟩ := encodeItems_cons_head s.data (ss.map String.data)
    have hdata : (encodeTagList (s :: ss)).data
        = '[' :: (encodeItems ((s :: ss).map String.data) ++ [']']) := rfl
    have hne : encodeItems ((s :: ss).map String.data) ++ [']'] ≠ [']'] := by
      simp only [List.map_cons] at ht ⊢
      rw [ht]
      simp
    have hlen : ((s :: ss).map String.data).length
        ≤ (encodeItems ((s :: ss).map String.data) ++ [']']).length + 1 := by
      have h1 := length_le_length_encodeItems ((s :: ss).map String.data)
      simp only [List.length_append, List.length_cons, List.length_nil]
      omega
    have hparse := parseArrAux_encodeItems ((s :: ss).map String.data)
      ((encodeItems ((s :: ss).map String.data) ++ [']']).length + 1)
      (by simp) (by simpa using hlen)
    show parseTagsChars (encodeTagList (s :: ss)).data = some (s :: ss)
    rw [hdata]
    simp only [parseTagsChars]
    rw [if_true, if_neg hne, hparse]
    have hmm : List.map (fun cs => String.mk cs) (List.map String.data (s :: ss)) = s :: ss := by
      rw [List.map_map]
      exact List.map_id'' (fun a => rfl) _
    exact congrArg some hmm

/-- Serialized tag lists are never the empty string. -/
theorem encodeTagList_ne_empty (l : List String) : encodeTagList l ≠ "" := by
  intro h
  have : (encodeTagList l).data = ("" : String).data := by rw [h]
  simp [encodeTagList] at this

/-- Reading back a freshly written tag cell yields the JSON encoding of
the written list, under either backend. -/
theorem readTags_writeTags (dbType : DBType) (l : List String) :
    readTags dbType (some (writeTags dbType l)) = some (jOfTags l) := by
  cases dbType with
  | postgres => rfl
  | sqlite =>
    simp only [writeTags, readTags, if_neg (encodeTagList_ne_empty l),
      parseTagList_encodeTagList l, Option.map_some']

/-- Reading back an optionally written tag cell, under either backend. -/
theorem readTags_writeTagsOpt (dbType : DBType) (o : Option (List String)) :
    readTags dbType (o.map (writeTags dbType)) = some (jOfTagsOpt o) := by
  cases o with
  | none => cases dbType <;> rfl
  | some l => simpa [jOfTagsOpt] using readTags_writeTags dbType l

/-- `seqMap` succeeds on a list where every element converts. -/
theorem seqMap_isSome {α β : Type} (f : α → Option β) (l : List α)
    (h : ∀ a ∈ l, f a ≠ none) : ∃ bs, seqMap f l = some bs := by
  induction l with
  | nil => exact ⟨[], rfl⟩
  | cons a as ih =>
    obtain ⟨bs, hbs⟩ := ih (fun x hx => h x (List.mem_cons_of_mem a hx))
    have ha := h a (List.mem_cons_self a as)
    cases hfa : f a with
    | none => exact absurd hfa ha
    | some b => exact ⟨b :: bs, by simp [seqMap, hfa, hbs]⟩

/-- `seqMap` after `map` fuses. -/
theorem seqMap_map {α β γ : Type} (g : β → Option γ) (f : α → β) (l : List α) :
    seqMap g (l.map f) = seqMap (fun a => g (f a)) l := by
  induction l with
  | nil => rfl
  | cons a as ih => simp [seqMap, ih]

/-- `seqMap` only depends on the values on members. -/
theorem seqMap_congr {α β : Type} (f g : α → Option β) (l : List α)
    (h : ∀ a ∈ l, f a = g a) : seqMap f l = seqMap g l := by
  induction l with
  | nil => rfl
  | cons a as ih =>
    simp only [seqMap, h a (List.mem_cons_self a as),
      ih (fun x hx => h x (List.mem_cons_of_mem a hx))]

/-- Finding by id in an id-preserving selective update. -/
theorem find?_id_map_update (l : List TaskRow) (i : Nat) (g : TaskRow → TaskRow)
    (hg : ∀ t, (g t).id = t.id) :
    (l.map (fun t => if t.id == i then g t else t)).find? (fun u => u.id == i)
      = (l.find? (fun u => u.id == i)).map (fun t => if t.id == i then g t else t) := by
  induction l with
  | nil => rfl
  | cons a as ih =>
    by_cases ha : a.id = i
    · have hga : (g a).id = i := by rw [hg a, ha]
      simp [List.find?_cons, ha, hga]
    · have hne : (a.id == i) = false := by simp [ha]
      simp only [List.map_cons, List.find?_cons, hne, if_neg, Bool.false_eq_true, ite_false, ih]

/-- The coalescing update with an all-absent body only touches `updated_at`. -/
theorem applyUpdate_empty (dbType : DBType) (now : Nat) (t : TaskRow) :
    applyUpdate dbType emptyUpdateBody now t = { t with updated_at := now } := rfl

/-- C3: a `PUT /api/tasks/:id` whose body supplies none of the mutable
fields leaves every previously-stored field of that task unchanged except
`updated_at`, which is set to the current timestamp. -/
theorem claim_C3_empty_update_frame (dbType : DBType) (s : DBState) (i : Nat) (t : TaskRow)
    (ht : s.tasks.find? (fun u => u.id == i) = some t) :
    ((handle dbType s (Request.put i emptyUpdateBody)).2).tasks.find? (fun u => u.id == i)
      = some { t with updated_at := s.now } := by
  have hti := List.find?_some ht
  have hid : t.id = i := by simpa using hti
  simp only [handle, handleAt, updateTask, ht]
  cases hrj : rowToJVal dbType (applyUpdate dbType emptyUpdateBody s.now t) with
  | none =>
    simp only [hrj]
    rw [find?_id_map_update s.tasks i (applyUpdate dbType emptyUpdateBody s.now) (fun u => rfl), ht]
    simp [hid, applyUpdate_empty]
  | some j =>
    simp only [hrj]
    rw [find?_id_map_update s.tasks i (applyUpdate dbType emptyUpdateBody s.now) (fun u => rfl), ht]
    simp [hid, applyUpdate_empty]

/-- Witness for C3 at the sample state. -/
theorem claim_C3_empty_update_frame_witness :
    sampleState.tasks.find? (fun u => u.id == 1) = some sampleTask
    ∧ ((handle DBType.sqlite sampleState (Request.put 1 emptyUpdateBody)).2).tasks.find?
        (fun u => u.id == 1) = some { sampleTask with updated_at := sampleState.now } :=
  ⟨rfl, claim_C3_empty_update_frame DBType.sqlite sampleState 1 sampleTask rfl⟩

/-- C4: a `POST /api/tasks` whose `project_id` and `title` are supplied and
truthy but whose `project_id` matches no project row yields 400 with a
`Project not found` error, under either backend, and inserts nothing. -/
theorem claim_C4_project_not_found (dbType : DBType) (s : DBState) (b : CreateBody)
    (pid : Nat) (ttl : String)
    (hp : b.project_id = some pid) (ht : b.title = some ttl)
    (hpid : pid ≠ 0) (httl : ttl ≠ "")
    (hnone : s.projects.find? (fun p => p.id == pid) = none) :
    (handle dbType s (Request.create b)).1 = ⟨400, errBody "Project not found"⟩
    ∧ ((handle dbType s (Request.create b)).2).tasks = s.tasks := by
  simp [handle, handleAt, createTask, hp, ht, hpid, httl, hnone]

/-- Witness for C4 at a state with no projects. -/
theorem claim_C4_project_not_found_witness :
    ((⟨none, none, none, none, none, none, none, none⟩ : CreateBody)
        = (⟨none, none, none, none, none, none, none, none⟩ : CreateBody))
    ∧ (handle DBType.postgres (⟨[], [], 1, 0⟩ : DBState)
        (Request.create ⟨some 7, some "T", none, none, none, none, none, none⟩)).1
      = ⟨400, errBody "Project not found"⟩ := by
  refine ⟨rfl, ?_⟩
  exact (claim_C4_project_not_found DBType.postgres ⟨[], [], 1, 0⟩
    ⟨some 7, some "T", none, none, none, none, none, none⟩ 7 "T"
    rfl rfl (by decide) (by decide) rfl).1

/-- C6: for an id matching no stored task, `GET`, `PUT` and `DELETE` on
`/api/tasks/:id` each return 404 with a `Task not found` error and leave
the task store unchanged. -/
theorem claim_C6_missing_id_404 (dbType : DBType) (s : DBState) (i : Nat) (b : UpdateBody)
    (h : ∀ t ∈ s.tasks, t.id ≠ i) :
    (handle dbType s (Request.byId i)).1 = ⟨404, errBody "Task not found"⟩
    ∧ ((handle dbType s (Request.byId i)).2).tasks = s.tasks
    ∧ (handle dbType s (Request.put i b)).1 = ⟨404, errBody "Task not found"⟩
    ∧ ((handle dbType s (Request.put i b)).2).tasks = s.tasks
    ∧ (handle dbType s (Request.del i)).1 = ⟨404, errBody "Task not found"⟩
    ∧ ((handle dbType s (Request.del i)).2).tasks = s.tasks := by
  have hfind : s.tasks.find? (fun t => t.id == i) = none :=
    List.find?_eq_none.mpr (fun t htm => by simpa using h t htm)
  have hfilter : s.tasks.filter (fun t => !(t.id == i)) = s.tasks :=
    List.filter_eq_self.mpr (fun t htm => by simpa using h t htm)
  refine ⟨?_, ?_, ?_, ?_, ?_, ?_⟩ <;>
    simp [handle, handleAt, getTaskById, updateTask, deleteTask, hfind, hfilter]

/-- Witness for C6 at the sample state with an unused id. -/
theorem claim_C6_missing_id_404_witness :
    (∀ t ∈ sampleState.tasks, t.id ≠ 9)
    ∧ (handle DBType.sqlite sampleState (Request.del 9)).1
        = ⟨404, errBody "Task not found"⟩ := by
  have h : ∀ t ∈ sampleState.tasks, t.id ≠ 9 := by decide
  exact ⟨h, (claim_C6_missing_id_404 DBType.sqlite sampleState 9 emptyUpdateBody h).2.2.2.2.1⟩

/-- C7: a `POST /api/tasks` missing `project_id` or `title` yields 400
with a message naming the required fields, and inserts nothing. -/
theorem claim_C7_missing_required_fields (dbType : DBType) (s : DBState) (b : CreateBody)
    (h : b.project_id = none ∨ b.title = none) :
    (handle dbType s (Request.create b)).1 = ⟨400, errBody "project_id and title are required"⟩
    ∧ ((handle dbType s (Request.create b)).2).tasks = s.tasks := by
  rcases h with h | h
  · cases hb : b.title <;> simp [handle, handleAt, createTask, h, hb]
  · cases hb : b.project_id <;> simp [handle, handleAt, createTask, h, hb]

/-- Witness for C7 with an absent title. -/
theorem claim_C7_missing_required_fields_witness :
    ((⟨some 1, none, none, none, none, none, none, none⟩ : CreateBody).project_id = none
      ∨ (⟨some 1, none, none, none, none, none, none, none⟩ : CreateBody).title = none)
    ∧ (handle DBType.sqlite sampleState
        (Request.create ⟨some 1, none, none, none, none, none, none, none⟩)).1
      = ⟨400, errBody "project_id and title are required"⟩ :=
  ⟨Or.inr rfl,
    (claim_C7_missing_required_fields DBType.sqlite sampleState
      ⟨some 1, none, none, none, none, none, none, none⟩ (Or.inr rfl)).1⟩

/-- `updateTask` only reads its body through `applyUpdate`. -/
theorem updateTask_congr (dbType : DBType) (s : DBState) (i : Nat) (b1 b2 : UpdateBody)
    (h : applyUpdate dbType b1 = applyUpdate dbType b2) :
    updateTask dbType s i b1 = updateTask dbType s i b2 := by
  unfold updateTask
  rw [h]

/-- C10: supplying a falsy value for a mutable non-tags field — empty
string for `title` or `description`, `0` for `estimated_hours` or
`actual_hours` — behaves exactly as if the field had been omitted. -/
theorem claim_C10_falsy_update_ignored (dbType : DBType) (s : DBState) (i : Nat)
    (b : UpdateBody) :
    handle dbType s (Request.put i { b with title := some "" })
        = handle dbType s (Request.put i { b with title := none })
    ∧ handle dbType s (Request.put i { b with description := some "" })
        = handle dbType s (Request.put i { b with description := none })
    ∧ handle dbType s (Request.put i { b with estimated_hours := some 0 })
        = handle dbType s (Request.put i { b with estimated_hours := none })
    ∧ handle dbType s (Request.put i { b with actual_hours := some 0 })
        = handle dbType s (Request.put i { b with actual_hours := none }) := by
  have h1 := updateTask_congr dbType s i
    { b with title := some "" } { b with title := none } rfl
  have h2 := updateTask_congr dbType s i
    { b with description := some "" } { b with description := none } rfl
  have h3 := updateTask_congr dbType s i
    { b with estimated_hours := some 0 } { b with estimated_hours := none } rfl
  have h4 := updateTask_congr dbType s i
    { b with actual_hours := some 0 } { b with actual_hours := none } rfl
  exact ⟨by simp only [handle, handleAt, h1], by simp only [handle, handleAt, h2],
    by simp only [handle, handleAt, h3], by simp only [handle, handleAt, h4]⟩

/-- C8: for any valid `POST /api/tasks`, omitting `status` creates a task
whose status is `todo` (whatever the other fields hold), and independently
omitting `priority` creates a task whose priority is `medium`, both in the
store and in the returned data. -/
theorem claim_C8_status_priority_defaults (dbType : DBType) (s : DBState) (b : CreateBody)
    (pid : Nat) (ttl : String)
    (hp : b.project_id = some pid) (ht : b.title = some ttl)
    (hpid : pid ≠ 0) (httl : ttl ≠ "")
    (hproj : (s.projects.find? (fun p => p.id == pid)).isNone = false) :
    (b.status = none →
      ∃ r : TaskRow,
        ((handle dbType s (Request.create b)).2).tasks = s.tasks ++ [r]
        ∧ r.status = "todo"
        ∧ respDataField (handle dbType s (Request.create b)).1 "status"
            = some (JVal.jstr "todo"))
    ∧ (b.priority = none →
      ∃ r : TaskRow,
        ((handle dbType s (Request.create b)).2).tasks = s.tasks ++ [r]
        ∧ r.priority = "medium"
        ∧ respDataField (handle dbType s (Request.create b)).1 "priority"
            = some (JVal.jstr "medium")) := by
  have h1 : (pid == 0 || ttl == "") = false := by simp [hpid, httl]
  constructor
  · intro hst
    simp only [handle, handleAt, createTask, hp, ht, hst, h1, Bool.false_eq_true,
      if_false, hproj, rowToJVal, readTags_writeTagsOpt, Option.map_some', jsOrStr]
    refine ⟨_, rfl, rfl, ?_⟩
    simp [respDataField, JVal.field, rowFields]
  · intro hpr
    simp only [handle, handleAt, createTask, hp, ht, hpr, h1, Bool.false_eq_true,
      if_false, hproj, rowToJVal, readTags_writeTagsOpt, Option.map_some', jsOrStr]
    refine ⟨_, rfl, rfl, ?_⟩
    simp [respDataField, JVal.field, rowFields]

/-- Witness for C8 at the sample state, with `status` omitted while
`priority` is supplied, exercising the independence of the defaults. -/
theorem claim_C8_status_priority_defaults_witness :
    ((⟨some 1, some "T", none, none, some "high", none, none, none⟩ : CreateBody).status
        = none)
    ∧ ∃ r : TaskRow,
        ((handle DBType.sqlite sampleState
            (Request.create ⟨some 1, some "T", none, none, some "high", none, none,
              none⟩)).2).tasks
          = sampleState.tasks ++ [r]
        ∧ r.status = "todo"
        ∧ respDataField (handle DBType.sqlite sampleState
            (Request.create ⟨some 1, some "T", none, none, some "high", none, none,
              none⟩)).1 "status"
          = some (JVal.jstr "todo") :=
  ⟨rfl, (claim_C8_status_priority_defaults DBType.sqlite sampleState
    ⟨some 1, some "T", none, none, some "high", none, none, none⟩ 1 "T"
    rfl rfl (by decide) (by decide) rfl).1 rfl⟩

/-- C5: `GET /api/tasks?status=done&priority=high` returns exactly the
stored tasks satisfying both predicates, in descending `created_at`
order, with `count` equal to the number of returned tasks. -/
theorem claim_C5_conjunctive_filter (dbType : DBType) (s : DBState)
    (hwf : ∀ t ∈ s.tasks, readTags dbType t.tags ≠ none) :
    ∃ l js,
      l.Perm (s.tasks.filter (fun t => t.status == "done" && t.priority == "high"))
      ∧ List.Sorted createdGE l
      ∧ seqMap (joinedToJVal dbType s.projects) l = some js
      ∧ (handle dbType s (Request.list ⟨none, some "done", some "high"⟩)).1
          = ⟨200, JVal.jobj [("success", JVal.jbool true), ("data", JVal.jarr js),
              ("count", JVal.jnum js.length)]⟩ := by
  have hpred : s.tasks.filter
        (fun t => (queryConds ⟨none, some "done", some "high"⟩).all (fun c => c t))
      = s.tasks.filter (fun t => t.status == "done" && t.priority == "high") := by
    apply List.filter_congr
    intro t _
    simp [queryConds]
  refine ⟨List.insertionSort createdGE (s.tasks.filter
      (fun t => (queryConds ⟨none, some "done", some "high"⟩).all (fun c => c t))), ?_⟩
  have hmem : ∀ a ∈ List.insertionSort createdGE (s.tasks.filter
      (fun t => (queryConds ⟨none, some "done", some "high"⟩).all (fun c => c t))),
      joinedToJVal dbType s.projects a ≠ none := by
    intro a ha
    have : a ∈ s.tasks := by
      have := (List.mem_insertionSort createdGE).mp ha
      exact (List.mem_filter.mp this).1
    have hr := hwf a this
    simp only [joinedToJVal]
    cases hc : readTags dbType a.tags with
    | none => exact absurd hc hr
    | some v => simp
  obtain ⟨js, hjs⟩ := seqMap_isSome _ _ hmem
  refine ⟨js, ?_, List.sorted_insertionSort createdGE _, hjs, ?_⟩
  · rw [← hpred]
    exact List.perm_insertionSort createdGE _
  · simp only [handle, handleAt, listTasks, hjs]

/-- Witness for C5 at the sample state. -/
theorem claim_C5_conjunctive_filter_witness :
    (∀ t ∈ sampleState.tasks, readTags DBType.sqlite t.tags ≠ none)
    ∧ ∃ l js,
        l.Perm (sampleState.tasks.filter
          (fun t => t.status == "done" && t.priority == "high"))
        ∧ List.Sorted createdGE l
        ∧ seqMap (joinedToJVal DBType.sqlite sampleState.projects) l = some js
        ∧ (handle DBType.sqlite sampleState
              (Request.list ⟨none, some "done", some "high"⟩)).1
            = ⟨200, JVal.jobj [("success", JVal.jbool true), ("data", JVal.jarr js),
                ("count", JVal.jnum js.length)]⟩ := by
  have hwf : ∀ t ∈ sampleState.tasks, readTags DBType.sqlite t.tags ≠ none := by
    intro t htm
    have heq : t = sampleTask := by simpa [sampleState] using htm
    subst heq
    simp [sampleTask, readTags]
  exact ⟨hwf, claim_C5_conjunctive_filter DBType.sqlite sampleState hwf⟩

/-- Failure envelopes satisfy the maintained invariant. -/
theorem envelopeOk_errBody (st : Nat) (msg : String) (h : ¬(200 ≤ st ∧ st < 300)) :
    envelopeOk ⟨st, errBody msg⟩ := by
  refine ⟨false, ?_, ?_, ?_, ?_⟩
  · simp [JVal.boolField, JVal.field, errBody]
  · simp [h]
  · simp
  · intro _
    simp [errBody, JVal.hasKey]

/-- Success envelopes with a `data` field satisfy the invariant. -/
theorem envelopeOk_data (st : Nat) (j : JVal) (h : 200 ≤ st ∧ st < 300) :
    envelopeOk ⟨st, JVal.jobj [("success", JVal.jbool true), ("data", j)]⟩ := by
  refine ⟨true, ?_, ?_, ?_, ?_⟩
  · simp [JVal.boolField, JVal.field]
  · simpa using h
  · intro _
    exact Or.inl (by simp [JVal.hasKey])
  · intro hf
    exact absurd hf (by simp)

/-- Success envelopes with `data` and `count` satisfy the invariant. -/
theorem envelopeOk_data_count (st : Nat) (j cj : JVal) (h : 200 ≤ st ∧ st < 300) :
    envelopeOk ⟨st, JVal.jobj [("success", JVal.jbool true), ("data", j),
      ("count", cj)]⟩ := by
  refine ⟨true, ?_, ?_, ?_, ?_⟩
  · simp [JVal.boolField, JVal.field]
  · simpa using h
  · intro _
    exact Or.inl (by simp [JVal.hasKey])
  · intro hf
    exact absurd hf (by simp)

/-- Success envelopes with a `message` field satisfy the invariant. -/
theorem envelopeOk_message (st : Nat) (msg : String) (h : 200 ≤ st ∧ st < 300) :
    envelopeOk ⟨st, JVal.jobj [("success", JVal.jbool true),
      ("message", JVal.jstr msg)]⟩ := by
  refine ⟨true, ?_, ?_, ?_, ?_⟩
  · simp [JVal.boolField, JVal.field]
  · simpa using h
  · intro _
    exact Or.inr (by simp [JVal.hasKey])
  · intro hf
    exact absurd hf (by simp)

/-- C9 counterexample: the `DELETE` success response carries `message`
but no `data` field, refuting the claim that every success response is
accompanied by `data`. -/
theorem claim_C9_envelope_counterexample :
    ¬ claimedEnvelope (handle DBType.sqlite sampleState (Request.del 1)).1 := by
  intro hc
  obtain ⟨b, h1, h2, h3, _⟩ := hc
  have hresp : (handle DBType.sqlite sampleState (Request.del 1)).1
      = ⟨200, JVal.jobj [("success", JVal.jbool true),
          ("message", JVal.jstr "Task deleted successfully")]⟩ := rfl
  rw [hresp] at h1 h2 h3
  cases b with
  | false => exact absurd (h2.mpr (by exact ⟨by norm_num, by norm_num⟩)) (by simp)
  | true =>
    have hdata := h3 rfl
    simp [JVal.hasKey] at hdata

/-- C9 amended: every task-route response is a JSON object with a boolean
`success` equal to the 2xx-ness of the status, carrying `data` (optionally
with `count`) or `message` on success, and `error` on failure. -/
theorem claim_C9_envelope_amended (dbType : DBType) (s : DBState) (r : Request) :
    envelopeOk ((handle dbType s r).1) := by
  cases r <;>
    simp only [handle, handleAt, listTasks, getTaskById, createTask, updateTask,
      deleteTask, serverError] <;>
    repeat' split
  all_goals
    first
    | exact envelopeOk_errBody _ _ (by omega)
    | exact envelopeOk_data _ _ (by omega)
    | exact envelopeOk_data_count _ _ _ (by omega)
    | exact envelopeOk_message _ _ (by omega)

/-- A search that fails on the first list continues on the second. -/
theorem find?_append_of_none {α : Type} (p : α → Bool) (l1 l2 : List α)
    (h : l1.find? p = none) : (l1 ++ l2).find? p = l2.find? p := by
  induction l1 with
  | nil => rfl
  | cons a as ih =>
    cases hpa : p a with
    | true => rw [List.find?_cons_of_pos as hpa] at h; exact absurd h (by simp)
    | false =>
      rw [List.find?_cons_of_neg as (by simp [hpa])] at h
      rw [List.cons_append, List.find?_cons_of_neg _ (by simp [hpa])]
      exact ih h

/-- A row holding a freshly written tag cell renders with those tags. -/
theorem rowToJVal_tags (dbType : DBType) (t : TaskRow) (l : List String)
    (h : t.tags = some (writeTags dbType l)) :
    rowToJVal dbType t = some (JVal.jobj (rowFields t (jOfTags l))) := by
  simp [rowToJVal, h, readTags_writeTags]

/-- A joined row holding a freshly written tag cell renders with those tags. -/
theorem joinedToJVal_tags (dbType : DBType) (projects : List Project) (t : TaskRow)
    (l : List String) (h : t.tags = some (writeTags dbType l)) :
    joinedToJVal dbType projects t
      = some (JVal.jobj (rowFields t (jOfTags l)
          ++ [("project_name", jOfStrOpt (projectName projects t.project_id))])) := by
  simp [joinedToJVal, h, readTags_writeTags]

/-- C1: creating a valid task carrying a tag list and reading it back by
id returns a `tags` value equal to the submitted ordered list, under
either backend. -/
theorem claim_C1_tags_roundtrip (dbType : DBType) (s : DBState) (b : CreateBody)
    (pid : Nat) (ttl : String) (l : List String)
    (hp : b.project_id = some pid) (ht : b.title = some ttl)
    (hpid : pid ≠ 0) (httl : ttl ≠ "")
    (hproj : (s.projects.find? (fun p => p.id == pid)).isNone = false)
    (htags : b.tags = some l)
    (hfresh : ∀ t ∈ s.tasks, t.id ≠ s.nextTaskId) :
    (handle dbType s (Request.create b)).1.status = 201
    ∧ respDataField (handle dbType (handle dbType s (Request.create b)).2
        (Request.byId s.nextTaskId)).1 "tags" = some (jOfTags l) := by
  have h1 : (pid == 0 || ttl == "") = false := by simp [hpid, httl]
  have hfind : s.tasks.find? (fun t => t.id == s.nextTaskId) = none :=
    List.find?_eq_none.mpr (fun t htm => by simpa using hfresh t htm)
  constructor
  · simp only [handle, handleAt, createTask, hp, ht, htags, h1, Bool.false_eq_true,
      if_false, hproj]
    rw [rowToJVal_tags dbType _ l rfl]
  · simp only [handle, handleAt, createTask, hp, ht, htags, h1, Bool.false_eq_true,
      if_false, hproj]
    rw [rowToJVal_tags dbType _ l rfl]
    simp only [getTaskById]
    rw [find?_append_of_none _ s.tasks _ hfind]
    rw [List.find?_cons_of_pos _ (by simp)]
    dsimp only
    rw [joinedToJVal_tags dbType s.projects _ l rfl]
    simp [respDataField, JVal.field, rowFields]

/-- Witness for C1 at the sample state. -/
theorem claim_C1_tags_roundtrip_witness :
    ((⟨some 1, some "T", none, none, none, none, none,
        some ["a", "b"]⟩ : CreateBody).tags = some ["a", "b"])
    ∧ respDataField (handle DBType.sqlite
        (handle DBType.sqlite sampleState
          (Request.create ⟨some 1, some "T", none, none, none, none, none,
            some ["a", "b"]⟩)).2
        (Request.byId sampleState.nextTaskId)).1 "tags"
      = some (jOfTags ["a", "b"]) :=
  ⟨rfl, (claim_C1_tags_roundtrip DBType.sqlite sampleState
    ⟨some 1, some "T", none, none, none, none, none, some ["a", "b"]⟩ 1 "T" ["a", "b"]
    rfl rfl (by decide) (by decide) rfl rfl (by decide)).2⟩

/-! ### Backend equivalence: the SQLite run simulates the Postgres run -/

/-- Encoding a structured cell and reading it under SQLite yields the
same JSON as reading the original under Postgres. -/
theorem readTags_encodeCell (c : Option TagCell) (hg : cellGood c) :
    readTags DBType.sqlite (c.map encodeCell) = readTags DBType.postgres c := by
  cases c with
  | none => rfl
  | some cell =>
    cases cell with
    | text s => exact absurd hg (by simp [cellGood])
    | arr l =>
      simp only [Option.map_some', encodeCell, readTags,
        if_neg (encodeTagList_ne_empty l), parseTagList_encodeTagList l, Option.map_some']

theorem encodeRow_id (t : TaskRow) : (encodeRow t).id = t.id := rfl

theorem encodeRow_project_id (t : TaskRow) : (encodeRow t).project_id = t.project_id := rfl

theorem encodeRow_status (t : TaskRow) : (encodeRow t).status = t.status := rfl

theorem encodeRow_priority (t : TaskRow) : (encodeRow t).priority = t.priority := rfl

theorem encodeRow_created_at (t : TaskRow) : (encodeRow t).created_at = t.created_at := rfl

theorem encodeRow_tags (t : TaskRow) : (encodeRow t).tags = t.tags.map encodeCell := rfl

/-- Rendering an encoded row under SQLite matches rendering the original
under Postgres. -/
theorem rowToJVal_encodeRow (t : TaskRow) (hg : cellGood t.tags) :
    rowToJVal DBType.sqlite (encodeRow t) = rowToJVal DBType.postgres t := by
  unfold rowToJVal
  rw [encodeRow_tags, readTags_encodeCell t.tags hg]
  rfl

/-- Rendering an encoded joined row under SQLite matches Postgres. -/
theorem joinedToJVal_encodeRow (projects : List Project) (t : TaskRow)
    (hg : cellGood t.tags) :
    joinedToJVal DBType.sqlite projects (encodeRow t)
      = joinedToJVal DBType.postgres projects t := by
  unfold joinedToJVal
  rw [encodeRow_tags, readTags_encodeCell t.tags hg]
  rfl

/-- The dynamically built filter conditions cannot see the tags column. -/
theorem queryConds_encodeRow (q : ListQuery) (c : TaskRow → Bool)
    (hc : c ∈ queryConds q) (t : TaskRow) : c (encodeRow t) = c t := by
  simp only [queryConds] at hc
  rcases List.mem_append.mp hc with h | h
  · rcases List.mem_append.mp h with h1 | h1
    · cases hqp : q.project_id with
      | none => rw [hqp] at h1; exact absurd h1 (by simp)
      | some pid =>
        rw [hqp] at h1
        simp at h1
        rw [h1]
        rfl
    · cases hqs : q.status with
      | none => rw [hqs] at h1; exact absurd h1 (by simp)
      | some st =>
        rw [hqs] at h1
        by_cases hst : (st == "") = true
        · simp [hst] at h1
        · simp [hst] at h1
          rw [h1]
          rfl
  · cases hqr : q.priority with
    | none => rw [hqr] at h; exact absurd h (by simp)
    | some pr =>
      rw [hqr] at h
      by_cases hpr : (pr == "") = true
      · simp [hpr] at h
      · simp [hpr] at h
        rw [h]
        rfl

/-- `List.all` over conditions agreeing on two rows. -/
theorem all_conds_eq (cs : List (TaskRow → Bool)) (t u : TaskRow)
    (h : ∀ c ∈ cs, c t = c u) :
    cs.all (fun c => c t) = cs.all (fun c => c u) := by
  induction cs with
  | nil => rfl
  | cons c cs ih =>
    simp only [List.all_cons, h c (List.mem_cons_self c cs),
      ih (fun d hd => h d (List.mem_cons_of_mem c hd))]

/-- Finding in a mapped list. -/
theorem find?_map_pred {α β : Type} (f : α → β) (p : β → Bool) (l : List α) :
    (l.map f).find? p = (l.find? (fun a => p (f a))).map f := by
  induction l with
  | nil => rfl
  | cons a as ih =>
    cases hpa : p (f a) with
    | true => simp [List.find?_cons, hpa]
    | false => simp [List.find?_cons, hpa, ih]

/-- Ordered insertion commutes with row encoding (`created_at` is kept). -/
theorem orderedInsert_map_encodeRow (a : TaskRow) (l : List TaskRow) :
    List.orderedInsert createdGE (encodeRow a) (l.map encodeRow)
      = (List.orderedInsert createdGE a l).map encodeRow := by
  induction l with
  | nil => rfl
  | cons b bs ih =>
    by_cases h : createdGE a b
    · rw [List.map_cons, List.orderedInsert, List.orderedInsert,
        if_pos (show createdGE (encodeRow a) (encodeRow b) from h), if_pos h]
      rfl
    · rw [List.map_cons, List.orderedInsert, List.orderedInsert,
        if_neg (show ¬createdGE (encodeRow a) (encodeRow b) from h), if_neg h,
        List.map_cons, ih]

/-- Insertion sort commutes with row encoding. -/
theorem insertionSort_map_encodeRow (l : List TaskRow) :
    List.insertionSort createdGE (l.map encodeRow)
      = (List.insertionSort createdGE l).map encodeRow := by
  induction l with
  | nil => rfl
  | cons a as ih =>
    rw [List.map_cons, List.insertionSort, List.insertionSort, ih,
      orderedInsert_map_encodeRow]

/-- A row with a NULL tags column renders with a JSON null, under either
backend. -/
theorem rowToJVal_none (dbType : DBType) (t : TaskRow) (h : t.tags = none) :
    rowToJVal dbType t = some (JVal.jobj (rowFields t JVal.jnull)) := by
  cases dbType <;> simp [rowToJVal, readTags, h]

/-- `GET /api/tasks` behaves identically over the encoded state. -/
theorem listTasks_equiv (p : DBState) (q : ListQuery) (hg : goodTasks p.tasks) :
    listTasks DBType.sqlite (encState p) q
      = ((listTasks DBType.postgres p q).1, encState (listTasks DBType.postgres p q).2) := by
  unfold listTasks
  dsimp only [encState]
  have hfilter : (p.tasks.map encodeRow).filter
        (fun t => (queryConds q).all (fun c => c t))
      = (p.tasks.filter (fun t => (queryConds q).all (fun c => c t))).map encodeRow := by
    rw [List.filter_map]
    congr 1
    apply List.filter_congr
    intro t _
    exact all_conds_eq (queryConds q) (encodeRow t) t
      (fun c hc => queryConds_encodeRow q c hc t)
  rw [hfilter, insertionSort_map_encodeRow, seqMap_map]
  have hseq : seqMap (fun a => joinedToJVal DBType.sqlite p.projects (encodeRow a))
        (List.insertionSort createdGE (p.tasks.filter
          (fun t => (queryConds q).all (fun c => c t))))
      = seqMap (joinedToJVal DBType.postgres p.projects)
        (List.insertionSort createdGE (p.tasks.filter
          (fun t => (queryConds q).all (fun c => c t)))) := by
    apply seqMap_congr
    intro a ha
    have hmem : a ∈ p.tasks := by
      have h1 := (List.mem_insertionSort createdGE).mp ha
      exact (List.mem_filter.mp h1).1
    exact joinedToJVal_encodeRow p.projects a (hg a hmem)
  rw [hseq]
  cases seqMap (joinedToJVal DBType.postgres p.projects)
      (List.insertionSort createdGE (p.tasks.filter
        (fun t => (queryConds q).all (fun c => c t)))) <;> rfl

/-- `GET /api/tasks/:id` behaves identically over the encoded state. -/
theorem getTaskById_equiv (p : DBState) (i : Nat) (hg : goodTasks p.tasks) :
    getTaskById DBType.sqlite (encState p) i
      = ((getTaskById DBType.postgres p i).1,
          encState (getTaskById DBType.postgres p i).2) := by
  unfold getTaskById
  dsimp only [encState]
  have hfind : (p.tasks.map encodeRow).find? (fun t => t.id == i)
      = (p.tasks.find? (fun t => t.id == i)).map encodeRow := by
    rw [find?_map_pred]
    rfl
  rw [hfind]
  cases hf : p.tasks.find? (fun t => t.id == i) with
  | none => rfl
  | some t0 =>
    simp only [Option.map_some']
    have hmem : t0 ∈ p.tasks := List.mem_of_find?_eq_some hf
    rw [joinedToJVal_encodeRow p.projects t0 (hg t0 hmem)]
    cases joinedToJVal DBType.postgres p.projects t0 <;> rfl

/-- `POST /api/tasks` behaves identically over the encoded state. -/
theorem createTask_equiv (p : DBState) (b : CreateBody) :
    createTask DBType.sqlite (encState p) b
      = ((createTask DBType.postgres p b).1,
          encState (createTask DBType.postgres p b).2) := by
  unfold createTask
  cases hbp : b.project_id with
  | none => rfl
  | some pid =>
    cases hbt : b.title with
    | none => rfl
    | some ttl =>
      dsimp only [encState]
      by_cases h1 : (pid == 0 || ttl == "") = true
      · simp [h1]
      · simp only [h1, Bool.false_eq_true, if_false]
        by_cases h2 : (p.projects.find? (fun pr => pr.id == pid)).isNone = true
        · simp [h2]
        · simp only [h2, Bool.false_eq_true, if_false]
          cases hbtg : b.tags with
          | none =>
            rw [rowToJVal_none DBType.sqlite _ rfl, rowToJVal_none DBType.postgres _ rfl]
            simp [List.map_append, encodeRow]
          | some l =>
            rw [rowToJVal_tags DBType.sqlite _ l rfl, rowToJVal_tags DBType.postgres _ l rfl]
            simp only [List.map_append, encodeRow, writeTags, encodeCell, Option.map_some',
              Prod.mk.injEq]
            exact ⟨rfl, rfl⟩

/-- The coalescing update commutes with row encoding. -/
theorem applyUpdate_encodeRow (b : UpdateBody) (now : Nat) (t : TaskRow) :
    applyUpdate DBType.sqlite b now (encodeRow t)
      = encodeRow (applyUpdate DBType.postgres b now t) := by
  cases b with
  | mk ti de st pr du eh ah tg => cases tg <;> rfl

/-- `PUT /api/tasks/:id` behaves identically over the encoded state. -/
theorem updateTask_equiv (p : DBState) (i : Nat) (b : UpdateBody)
    (hg : goodTasks p.tasks) :
    updateTask DBType.sqlite (encState p) i b
      = ((updateTask DBType.postgres p i b).1,
          encState (updateTask DBType.postgres p i b).2) := by
  unfold updateTask
  dsimp only [encState]
  have hfind : (p.tasks.map encodeRow).find? (fun t => t.id == i)
      = (p.tasks.find? (fun t => t.id == i)).map encodeRow := by
    rw [find?_map_pred]
    rfl
  rw [hfind]
  cases hf : p.tasks.find? (fun t => t.id == i) with
  | none => rfl
  | some t0 =>
    simp only [Option.map_some']
    have hmem : t0 ∈ p.tasks := List.mem_of_find?_eq_some hf
    have htasks : (p.tasks.map encodeRow).map
          (fun t => if t.id == i then applyUpdate DBType.sqlite b p.now t else t)
        = (p.tasks.map
            (fun t => if t.id == i then applyUpdate DBType.postgres b p.now t else t)).map
            encodeRow := by
      rw [List.map_map, List.map_map]
      apply List.map_congr_left
      intro t _
      show (if (encodeRow t).id == i then applyUpdate DBType.sqlite b p.now (encodeRow t)
          else encodeRow t)
        = encodeRow (if t.id == i then applyUpdate DBType.postgres b p.now t else t)
      cases hcc : (t.id == i) with
      | true =>
        rw [if_pos (show ((encodeRow t).id == i) = true from hcc), if_pos rfl]
        exact applyUpdate_encodeRow b p.now t
      | false =>
        rw [if_neg (show ¬((encodeRow t).id == i) = true from by
            rw [show ((encodeRow t).id == i) = (t.id == i) from rfl, hcc]; simp),
          if_neg (by simp)]
    have hcell : cellGood (applyUpdate DBType.postgres b p.now t0).tags := by
      show cellGood (coalesce (b.tags.map (writeTags DBType.postgres)) t0.tags)
      cases b.tags with
      | none => exact hg t0 hmem
      | some l => trivial
    rw [htasks, applyUpdate_encodeRow b p.now t0,
      rowToJVal_encodeRow (applyUpdate DBType.postgres b p.now t0) hcell]
    cases rowToJVal DBType.postgres (applyUpdate DBType.postgres b p.now t0) <;> rfl

/-- `DELETE /api/tasks/:id` behaves identically over the encoded state. -/
theorem deleteTask_equiv (p : DBState) (i : Nat) :
    deleteTask (encState p) i
      = ((deleteTask p i).1, encState (deleteTask p i).2) := by
  unfold deleteTask
  dsimp only [encState]
  have hfil : (p.tasks.map encodeRow).filter (fun t => !(t.id == i))
      = (p.tasks.filter (fun t => !(t.id == i))).map encodeRow := by
    rw [List.filter_map]
    rfl
  rw [hfil, List.length_map, List.length_map]
  by_cases h : (p.tasks.length - (p.tasks.filter (fun t => !(t.id == i))).length == 0) = true
  · simp [h]
  · simp [h]

/-- The Postgres handlers only ever store structured tag cells. -/
theorem goodTasks_step (p : DBState) (r : Request) (hg : goodTasks p.tasks) :
    goodTasks ((handleAt DBType.postgres p r).2).tasks := by
  cases r with
  | list q =>
    show goodTasks ((listTasks DBType.postgres p q).2).tasks
    unfold listTasks
    dsimp only
    split <;> exact hg
  | byId i =>
    show goodTasks ((getTaskById DBType.postgres p i).2).tasks
    unfold getTaskById
    split
    · exact hg
    · split <;> exact hg
  | create b =>
    show goodTasks ((createTask DBType.postgres p b).2).tasks
    unfold createTask
    split
    · split
      · exact hg
      · split
        · exact hg
        · dsimp only
          split
          all_goals
            intro t htm
            rcases List.mem_append.mp htm with h | h
            · exact hg t h
            · have ht := List.mem_singleton.mp h
              subst ht
              show cellGood (b.tags.map (writeTags DBType.postgres))
              cases b.tags <;> trivial
    · exact hg
  | put i b =>
    show goodTasks ((updateTask DBType.postgres p i b).2).tasks
    unfold updateTask
    split
    · exact hg
    · dsimp only
      split
      all_goals
        intro t htm
        rcases List.mem_map.mp htm with ⟨u, hu, rfl⟩
        cases hui : (u.id == i) with
        | true =>
          rw [if_pos rfl]
          show cellGood (coalesce (b.tags.map (writeTags DBType.postgres)) u.tags)
          cases b.tags with
          | none => exact hg u hu
          | some l => trivial
        | false =>
          rw [if_neg (by simp)]
          exact hg u hu
  | del i =>
    show goodTasks ((deleteTask p i).2).tasks
    unfold deleteTask
    dsimp only
    split
    all_goals
      intro t htm
      exact hg t (List.mem_of_mem_filter htm)

/-- Unfolding of `handle` into its dispatch and clock advance. -/
theorem handle_of_handleAt (dbType : DBType) (s : DBState) (r : Request) :
    handle dbType s r = ((handleAt dbType s r).1,
      { (handleAt dbType s r).2 with now := (handleAt dbType s r).2.now + 1 }) := rfl

/-- One request step: the SQLite run over the encoded state produces the
same response and the encoded next state of the Postgres run. -/
theorem handle_equiv (p : DBState) (r : Request) (hg : goodTasks p.tasks) :
    handle DBType.sqlite (encState p) r
      = ((handle DBType.postgres p r).1, encState (handle DBType.postgres p r).2) := by
  rw [handle_of_handleAt, handle_of_handleAt]
  cases r with
  | list q =>
    simp only [handleAt]
    rw [listTasks_equiv p q hg]
    rfl
  | byId i =>
    simp only [handleAt]
    rw [getTaskById_equiv p i hg]
    rfl
  | create b =>
    simp only [handleAt]
    rw [createTask_equiv p b]
    rfl
  | put i b =>
    simp only [handleAt]
    rw [updateTask_equiv p i b hg]
    rfl
  | del i =>
    simp only [handleAt]
    rw [deleteTask_equiv p i]
    rfl

/-- Whole-run equivalence over related states. -/
theorem run_equiv (rs : List Request) : ∀ p : DBState, goodTasks p.tasks →
    run DBType.sqlite (encState p) rs = run DBType.postgres p rs := by
  induction rs with
  | nil => intro p _; rfl
  | cons r rest ih =>
    intro p hg
    show (handle DBType.sqlite (encState p) r).1
        :: run DBType.sqlite (handle DBType.sqlite (encState p) r).2 rest
      = (handle DBType.postgres p r).1
        :: run DBType.postgres (handle DBType.postgres p r).2 rest
    rw [handle_equiv p r hg]
    have hstep : goodTasks ((handle DBType.postgres p r).2).tasks :=
      goodTasks_step p r hg
    rw [ih (handle DBType.postgres p r).2 hstep]

/-- C2: an identical request sequence against an initially task-empty
store produces identical JSON response bodies under the SQLite and the
Postgres backends (here the responses are equal outright, so they are in
particular equal up to id representation). -/
theorem claim_C2_backend_equivalence (reqs : List Request) (projects : List Project)
    (nid clock : Nat) :
    run DBType.sqlite ⟨projects, [], nid, clock⟩ reqs
      = run DBType.postgres ⟨projects, [], nid, clock⟩ reqs := by
  have h := run_equiv reqs ⟨projects, [], nid, clock⟩ (fun t htm => absurd htm (by simp))
  exact h

end Taskify
